import Mathlib

/-
Verification of lsapi.py: a tool that recursively lists the public names
exposed by a Python package as a tree.

Shallow embedding notes.
Python strings are modelled as lists of characters (PStr).  Python object
identity is modelled by natural-number ids into a Graph, a finite table of
reflected values; each PyVal field mirrors one reflection fact used by the
source (inspect.ismodule, __path__, __name__, __package__, __module__,
__wrapped__, __qualname__, inspect.getsourcefile, inspect.signature, ...).
Fallible reflection calls are modelled with Option (present/absent) and, for
calls whose failure the source does not catch, the affected functions return
Except so that a propagating Python exception is visible.  The process-wide
dict known_namespaces is modelled as an explicit association list threaded
through the traversal; Python dict-keying of module/class objects is
identity-based, hence keys are ids.  Recursion in walk_names is modelled
with explicit fuel; running out of fuel is the distinguished error
WErr.fuel, and termination is the theorem that enough fuel never produces
that error.  The ansicolors `color` function is an external collaborator and
is a parameter of the configuration (a no-op under --no-color).
-/

/-- Python strings as character lists. -/
abbrev PStr := List Char

/-- Python str.startswith. -/
def startswith (s p : PStr) : Bool := p.isPrefixOf s

/-- Python str.endswith. -/
def endswith (s p : PStr) : Bool := p.isSuffixOf s

/-- Python s.rsplit(sep, 1)[0] for sep = the dot character: everything
before the last dot, or the whole string when no dot occurs. -/
def rsplit_head (xs : PStr) : PStr :=
  let r := xs.reverse
  let pre := r.takeWhile (fun c => c ≠ '.')
  if pre.length = r.length then xs
  else (r.drop (pre.length + 1)).reverse

/-- The last dotted component of a string (text after the last dot).
Used only to state the spec side of claim C6. -/
def last_component (xs : PStr) : PStr :=
  (xs.reverse.takeWhile (fun c => c ≠ '.')).reverse

/-- Modelled from the spec: a dotted-path prefix test (equal to the root
name, or extending it at a dot component boundary), stated from the spec
words "dotted-path prefix match, not substring".  Used only to compare with
the source's in_package. -/
def spec_dotted_prefixed (child root : PStr) : Bool :=
  child = root || startswith child (root ++ ".".data)

/-- Argument to the external ansicolors color function: an ANSI color
number or a color name string. -/
inductive Fg where
  | num : Nat → Fg
  | named : PStr → Fg

/-- One of the tree-drawing glyph styles (_tree_default, _tree_compat,
_tree_space in the source). -/
structure Style where
  line : PStr
  fork : PStr
  stop : PStr
  open_ : PStr

/-- _tree_default (unicode box drawing). -/
def tree_default : Style := ⟨"│ ".data, "├─".data, "└─".data, "  ".data⟩

/-- _tree_compat (ASCII-safe). -/
def tree_compat : Style := ⟨"| ".data, "|-".data, "+-".data, "  ".data⟩

/-- _tree_space (no tree). -/
def tree_space : Style := ⟨"  ".data, "  ".data, "  ".data, "  ".data⟩

/-- inspect parameter kinds as dispatched on by fmt_parameter. -/
inductive PKind where
  | varPositional
  | varKeyword
  | positionalOrKeyword
  | otherKind

/-- A parameter default value: the source treats string defaults (quoted)
differently from all others (rendered via str). -/
inductive PDefault where
  | str : PStr → PDefault
  | other : PStr → PDefault

/-- A type annotation object: either an actual type (rendered by __name__)
or any other annotation form (rendered by str). -/
inductive PAnn where
  | ofType : PStr → PAnn
  | other : PStr → PAnn

/-- One inspect.Parameter: name, kind, optional default, optional
annotation (none models inspect._empty), and str(parameter). -/
structure Param where
  name : PStr
  kind : PKind
  default_ : Option PDefault
  ann : Option PAnn
  strForm : PStr

/-- One inspect.Signature: ordered parameters and optional return
annotation (none models inspect._empty). -/
structure Sig where
  params : List Param
  return_ann : Option PAnn

/-- The reflection facts about one Python object that the source consults.
sourcefileRes models inspect.getsourcefile: none = raises TypeError,
some none = returns None, some (some p) = returns path p.
fileAttr models value.__dict__.get('__file__').
pkgAttr / modAttr model hasattr/getattr for __package__ / __module__, whose
value may itself be Python None (inner Option).
signature models inspect.signature: none = raises ValueError. -/
structure PyVal where
  ismodule : Bool
  isclass : Bool
  haspath : Bool
  path0 : PStr
  name : PStr
  qualname : PStr
  pkgAttr : Option (Option PStr)
  modAttr : Option (Option PStr)
  wrapped : Option Nat
  isbuiltin : Bool
  ismethod : Bool
  selfId : Nat
  ismethoddescriptor : Bool
  objclassId : Nat
  isfunction : Bool
  isproperty : Bool
  fget : Option Nat
  fset : Option Nat
  fdel : Option Nat
  sourcefileRes : Option (Option PStr)
  fileAttr : Option PStr
  typeName : PStr
  callable : Bool
  signature : Option Sig
  members : List (PStr × Nat)

/-- A plain value with no namespace structure (used for out-of-table ids). -/
def default_pyval : PyVal :=
  ⟨false, false, false, [], [], [], none, none, none, false, false, 0,
   false, 0, false, false, none, none, none, some none, none, [], false,
   none, []⟩

/-- The reflected object graph: a finite table of objects, addressed by id. -/
structure Graph where
  vals : List PyVal

/-- Object with identity i (out-of-range ids give a plain default value). -/
def Graph.val (g : Graph) (i : Nat) : PyVal := g.vals.getD i default_pyval

/-- Number of objects in the table. -/
def Graph.n (g : Graph) : Nat := g.vals.length

/-- The command-line configuration (args in the source) together with the
external collaborators: the color function and the tree glyph style.
foreign models args.external; private_ models args.private; rootId is the
id of the imported root package (the `package` global); rootName is the
args.package string. -/
structure Config where
  all : Bool
  private_ : Bool
  magic : Bool
  canonical : Bool
  foreign : Bool
  signatures : Bool
  max_depth : Option Int
  tree : Style
  color : PStr → Fg → Option PStr → PStr
  rootId : Nat
  rootName : PStr

/-- The ANSI color table (colormap in the source). -/
def colormap : List (PStr × Nat) :=
  [("package".data, 2), ("module".data, 10), ("type".data, 11),
   ("function".data, 6), ("method".data, 14), ("kwarg".data, 25),
   ("arg".data, 26), ("default".data, 15)]

/-- colormap[k] for a key known to be present (total lookup; the source
only indexes existing keys). -/
def cm (k : PStr) : Fg := Fg.num ((List.lookup k colormap).getD 0)

/-- is_magic: name starts and ends with a double underscore. -/
def is_magic (nm : PStr) : Bool :=
  startswith nm "__".data && endswith nm "__".data

/-- is_private: name starts with an underscore and is not magic. -/
def is_private (nm : PStr) : Bool :=
  startswith nm "_".data && !is_magic nm

/-- is_package: a module that has a __path__ attribute. -/
def is_package (v : PyVal) : Bool := v.ismodule && v.haspath

/-- in_package: infer whether `other` is defined in `package`.  Reads
__package__ (else __module__) and does a plain str.startswith against the
root package's __name__.  If the attribute is present but is Python None,
None.startswith raises AttributeError, modelled as Except.error. -/
def in_package (g : Graph) (pkgId otherId : Nat) : Except Unit Bool :=
  match (g.val otherId).pkgAttr with
  | some (some mn) => .ok (startswith mn (g.val pkgId).name)
  | some none => .error ()
  | none =>
    match (g.val otherId).modAttr with
    | some (some mn) => .ok (startswith mn (g.val pkgId).name)
    | some none => .error ()
    | none => .ok false

/-- fmt_type on an annotation object: a type renders by its __name__,
anything else by str. -/
def fmt_type : PAnn → PStr
  | .ofType n => n
  | .other s => s

/-- The default display string inside fmt_parameter: a string default gets
double quotes, anything else renders by str. -/
def default_str : PDefault → PStr
  | .str s => "\"".data ++ s ++ "\"".data
  | .other s => s

/-- fmt_parameter: renders one parameter per its kind, colorized. -/
def fmt_parameter (cfg : Config) (p : Param) : PStr :=
  let name := match p.ann with
    | some a => p.name ++ "::".data ++ fmt_type a
    | none => p.name
  if p.name = "cls".data ∨ p.name = "self".data then
    cfg.color p.strForm (cm "default".data) (some "bold".data)
  else match p.kind with
  | .varPositional => "*".data ++ cfg.color name (cm "arg".data) (some "bold".data)
  | .varKeyword => "**".data ++ cfg.color name (cm "kwarg".data) (some "bold".data)
  | .positionalOrKeyword =>
    match p.default_ with
    | some d =>
      cfg.color name (cm "kwarg".data) none ++ "=".data ++
        cfg.color (default_str d) (cm "default".data) none
    | none => cfg.color name (cm "arg".data) none
  | .otherKind => cfg.color p.strForm (cm "arg".data) none

/-- The display kind tag of a value: "package" for a package, otherwise the
runtime type name (fmt_type(type(value)) = type(value).__name__). -/
def fmt_tag (v : PyVal) : PStr :=
  if is_package v then "package".data else v.typeName

/-- colormap.get(type_, 'white'). -/
def fmt_name_fg (t : PStr) : Fg :=
  match List.lookup t colormap with
  | some n => Fg.num n
  | none => Fg.named "white".data

/-- fmt_name: render one symbol's display line content.  When signature
display is on and the value is callable, inspect.signature is attempted;
its ValueError failure is rendered as name(???) with the placeholder
colored red/bold. -/
def fmt_name (cfg : Config) (g : Graph) (vId : Nat) (nm : PStr) : PStr :=
  let v := g.val vId
  let type_ := fmt_tag v
  let color_ := fmt_name_fg type_
  let nm' :=
    if cfg.signatures && v.callable then
      match v.signature with
      | some sig =>
        let sig_str := List.intercalate ", ".data (sig.params.map (fmt_parameter cfg))
        let n1 := nm ++ "(".data ++ sig_str ++ ")".data
        match sig.return_ann with
        | some ra => n1 ++ " -> ".data ++ fmt_type ra
        | none => n1
      | none =>
        nm ++ "(".data ++ cfg.color "???".data (Fg.named "red".data) (some "bold".data) ++ ")".data
    else nm
  cfg.color nm' color_ none ++ "::".data ++ type_

/-- name_filter: name-based display policy. -/
def name_filter (cfg : Config) (nm : PStr) : Bool :=
  if !cfg.all then
    if !cfg.private_ && is_private nm then false
    else if !cfg.magic && is_magic nm then false
    else true
  else true

/-- get_source_file_nonesafe: inspect.getsourcefile(value) or
value.__dict__.get('__file__', ''), returning '__main__' when
getsourcefile raises TypeError.  A None or empty-string getsourcefile
result is falsy and falls through to the __file__ fallback. -/
def get_source_file_nonesafe (v : PyVal) : PStr :=
  match v.sourcefileRes with
  | none => "__main__".data
  | some r =>
    let s := match r with | none => [] | some s => s
    if s = [] then v.fileAttr.getD [] else s

/-- get_source_file_nonesafe(value) == inspect.getsourcefile(namespace):
the namespace-side call is the raw getsourcefile, whose TypeError is not
caught by is_canon and propagates; a None namespace result compares
unequal to any string. -/
def source_eq_ns (v ns : PyVal) : Except Unit Bool :=
  match ns.sourcefileRes with
  | none => .error ()
  | some r =>
    .ok (match r with
      | some p => decide (get_source_file_nonesafe v = p)
      | none => false)

/-- The property accessors fget/fset/fdel that are plain functions. -/
def prop_accessors (g : Graph) (v : PyVal) : List Nat :=
  ([v.fget, v.fset, v.fdel].filterMap id).filter (fun fid => (g.val fid).isfunction)

/-- is_canon: is the value a canonical member of the namespace?  Both sides
are unwrapped through __wrapped__ once; builtins are never canonical; a
package compares source directories / source files, a module compares
source files, a class dispatches on the member kind. -/
def is_canon (g : Graph) (nsId0 vId0 : Nat) : Except Unit Bool :=
  let nsId := match (g.val nsId0).wrapped with | some w => w | none => nsId0
  let vId := match (g.val vId0).wrapped with | some w => w | none => vId0
  let ns := g.val nsId
  let v := g.val vId
  if v.isbuiltin then .ok false
  else if ns.ismodule then
    if ns.haspath then
      if v.ismodule then
        if v.haspath then .ok (startswith v.path0 ns.path0)
        else .ok (startswith (get_source_file_nonesafe v) ns.path0)
      else source_eq_ns v ns
    else source_eq_ns v ns
  else
    if v.ismethod then .ok (decide (v.selfId = nsId))
    else if v.ismethoddescriptor then .ok (decide (v.objclassId = nsId))
    else if v.isfunction then .ok (decide (rsplit_head v.qualname = ns.name))
    else if v.isproperty then
      .ok ((prop_accessors g v).any (fun fid => decide (rsplit_head (g.val fid).qualname = ns.name)))
    else .ok true

/-- predicate_factory: the member predicate is is_canon in canonical mode,
otherwise constantly true. -/
def member_pred (cfg : Config) (g : Graph) (nsId vId : Nat) : Except Unit Bool :=
  if cfg.canonical then is_canon g nsId vId else .ok true

/-- The traversal state: the known_namespaces ledger (id to first recorded
dotted path, insertion order) and the lines printed so far. -/
structure WState where
  ledger : List (Nat × PStr)
  out : List PStr

/-- Errors of a modelled run: a propagating Python exception, or fuel
exhaustion (a modelling artifact: real recursion has no fuel, and the
termination theorem shows enough fuel never produces it). -/
inductive WErr where
  | fuel
  | exc

/-- Dict lookup in the ledger (keys are object identities). -/
def ledger_lookup : List (Nat × PStr) → Nat → Option PStr
  | [], _ => none
  | (k, p) :: rest, k' => if k = k' then some p else ledger_lookup rest k'

/-- The inline back-reference annotation: color('[see path]', red, bold). -/
def see_note (cfg : Config) (p : PStr) : PStr :=
  cfg.color ("[see ".data ++ p ++ "]".data) (Fg.named "red".data) (some "bold".data)

/-- The inline external-value annotation:
color('[external type name]', red, bold). -/
def foreign_note (cfg : Config) (v : PyVal) : PStr :=
  cfg.color ("[external ".data ++ v.typeName ++ " ".data ++ v.name ++ "]".data)
    (Fg.named "red".data) (some "bold".data)

/-- The max-depth truncation marker: color('[...]', red, bold). -/
def trunc_note (cfg : Config) : PStr :=
  cfg.color "[...]".data (Fg.named "red".data) (some "bold".data)

/-- _handle_name: emit one symbol.  For a module or class value: external
values get the external annotation and no recursion; values already in the
ledger get the see annotation and no recursion; otherwise the line is
printed and either a truncation marker child is printed (max depth
reached) or the identity is recorded in the ledger and the walk recurses
(the recursion is the `recurse` parameter, instantiated by walk_names with
itself at the remaining fuel). -/
def handle_name (cfg : Config) (g : Graph)
    (recurse : Nat → Nat → PStr → WState → Except WErr WState)
    (srcNs : Nat) (nm : PStr) (vId : Nat) (depth : Nat)
    (tab subtab : PStr) (st : WState) : Except WErr WState :=
  if (g.val vId).ismodule || (g.val vId).isclass then
    match (if cfg.foreign then Except.ok true else in_package g cfg.rootId vId) with
    | .error _ => .error .exc
    | .ok inpkg =>
      if !inpkg then
        .ok ⟨st.ledger,
             st.out ++ [tab ++ fmt_name cfg g vId nm ++ " ".data ++ foreign_note cfg (g.val vId)]⟩
      else
        match ledger_lookup st.ledger vId with
        | some p =>
          .ok ⟨st.ledger,
               st.out ++ [tab ++ fmt_name cfg g vId nm ++ " ".data ++ see_note cfg p]⟩
        | none =>
          if (match cfg.max_depth with
              | some d => decide (d ≤ (depth : Int))
              | none => false) then
            .ok ⟨st.ledger,
                 st.out ++ [tab ++ fmt_name cfg g vId nm,
                            subtab ++ cfg.tree.stop ++ trunc_note cfg]⟩
          else
            recurse vId (depth + 1) subtab
              ⟨st.ledger ++ [(vId, (g.val srcNs).name ++ ".".data ++ nm)],
               st.out ++ [tab ++ fmt_name cfg g vId nm]⟩
  else
    .ok ⟨st.ledger, st.out ++ [tab ++ fmt_name cfg g vId nm]⟩

/-- Whether a surviving member is a plain terminal value (neither module
nor class: the `names` group of walk_names). -/
def is_term_member (g : Graph) (p : PStr × Nat) : Bool :=
  !(g.val p.2).ismodule && !(g.val p.2).isclass

/-- Whether a surviving member goes to the `classes` group. -/
def is_class_member (g : Graph) (p : PStr × Nat) : Bool :=
  !(g.val p.2).ismodule && (g.val p.2).isclass

/-- Whether a surviving member goes to the `modules` group. -/
def is_module_member (g : Graph) (p : PStr × Nat) : Bool :=
  (g.val p.2).ismodule

/-- The member-organizing loop of walk_names: getmembers applies the
member predicate during enumeration, then each surviving name passes
name_filter and is appended to the modules, classes or names group. -/
def organize_go (cfg : Config) (g : Graph) (nsId : Nat) :
    List (PStr × Nat) → List (PStr × Nat) × List (PStr × Nat) × List (PStr × Nat) →
    Except Unit (List (PStr × Nat) × List (PStr × Nat) × List (PStr × Nat))
  | [], acc => .ok acc
  | (nm, v) :: rest, acc =>
    match member_pred cfg g nsId v with
    | .error e => .error e
    | .ok keep =>
      if keep && name_filter cfg nm then
        if (g.val v).ismodule then
          organize_go cfg g nsId rest (acc.1, acc.2.1, acc.2.2 ++ [(nm, v)])
        else if (g.val v).isclass then
          organize_go cfg g nsId rest (acc.1, acc.2.1 ++ [(nm, v)], acc.2.2)
        else
          organize_go cfg g nsId rest (acc.1 ++ [(nm, v)], acc.2.1, acc.2.2)
      else organize_go cfg g nsId rest acc

/-- Organize the members of a namespace into (names, classes, modules). -/
def organize (cfg : Config) (g : Graph) (nsId : Nat) :
    Except Unit (List (PStr × Nat) × List (PStr × Nat) × List (PStr × Nat)) :=
  organize_go cfg g nsId (g.val nsId).members ([], [], [])

/-- The flat list of members surviving the member predicate and
name_filter, in enumeration order (a characterization helper for the
organizing loop; not itself part of the source). -/
def surviving (cfg : Config) (g : Graph) (nsId : Nat) :
    List (PStr × Nat) → Except Unit (List (PStr × Nat))
  | [] => .ok []
  | (nm, v) :: rest =>
    match member_pred cfg g nsId v with
    | .error e => .error e
    | .ok keep =>
      match surviving cfg g nsId rest with
      | .error e => .error e
      | .ok tail => .ok (if keep && name_filter cfg nm then (nm, v) :: tail else tail)

/-- The emission loop of walk_names: every symbol but the last renders
with the fork connector, the last with the stop connector. -/
def emit_all (cfg : Config) (g : Graph)
    (recurse : Nat → Nat → PStr → WState → Except WErr WState)
    (srcNs depth : Nat) (tab : PStr) :
    List (PStr × Nat) → WState → Except WErr WState
  | [], st => .ok st
  | (nm, v) :: rest, st =>
    match rest with
    | [] =>
      handle_name cfg g recurse srcNs nm v depth
        (tab ++ cfg.tree.stop) (tab ++ cfg.tree.open_) st
    | _ :: _ =>
      match handle_name cfg g recurse srcNs nm v depth
          (tab ++ cfg.tree.fork) (tab ++ cfg.tree.line) st with
      | .ok st' => emit_all cfg g recurse srcNs depth tab rest st'
      | .error e => .error e

/-- walk_names: organize the members of the namespace into names, classes
and modules, concatenate in that order, and emit each, recursing (through
handle_name) with one unit of fuel less. -/
def walk_names (cfg : Config) (g : Graph) :
    Nat → Nat → Nat → PStr → WState → Except WErr WState
  | 0, _, _, _, _ => .error .fuel
  | fuel + 1, nsId, depth, tab, st =>
    match organize cfg g nsId with
    | .error _ => .error .exc
    | .ok (names, classes, modules) =>
      emit_all cfg g (walk_names cfg g fuel) nsId depth tab
        (names ++ classes ++ modules) st

/-- The whole program after argument parsing: print the root line, then
walk the root at depth 1 with an empty ledger. -/
def lsapi_run (cfg : Config) (g : Graph) (fuel : Nat) : Except WErr WState :=
  walk_names cfg g fuel cfg.rootId 1 [] ⟨[], [fmt_name cfg g cfg.rootId cfg.rootName]⟩

/-- Well-formed ledger relative to a table of n objects: identities are
distinct and in range. -/
abbrev wfL (n : Nat) (l : List (Nat × PStr)) : Prop :=
  (l.map Prod.fst).Nodup ∧ ∀ k ∈ l.map Prod.fst, k < n

/-- Well-formed traversal state. -/
abbrev wfS (n : Nat) (st : WState) : Prop := wfL n st.ledger

/-- Well-formed graph: member references stay inside the table. -/
abbrev WFG (g : Graph) : Prop :=
  ∀ v ∈ g.vals, ∀ p ∈ v.members, p.2 < g.n

/-- Whether sub occurs as a contiguous run inside l (used to observe a
symbol's rendering inside a printed line). -/
def line_mentions (sub l : PStr) : Bool := l.tails.any (fun t => sub.isPrefixOf t)

/-- The identity color function: the --no-color override of color. -/
def plain_color : PStr → Fg → Option PStr → PStr := fun s _ _ => s

/-- A baseline configuration: every toggle off, no maximum depth, blank
tree glyphs, no color, root id 0. -/
def cfg_plain : Config :=
  ⟨false, false, false, false, false, false, none, tree_space, plain_color, 0, "foo".data⟩

/-- cfg_plain with --all. -/
def cfg_all : Config := { cfg_plain with all := true }

/-- cfg_plain with --signatures. -/
def cfg_sig : Config := { cfg_plain with signatures := true }

/-- cfg_plain with --max-depth 2 and root package name pkg. -/
def cfg_d2 : Config := { cfg_plain with max_depth := some 2, rootName := "pkg".data }

/-- cfg_plain with root package name m. -/
def cfg_m : Config := { cfg_plain with rootName := "m".data }

/-- A recursion continuation that fails if ever invoked (used to observe
that a handled symbol is not recursed into). -/
def rec_fail : Nat → Nat → PStr → WState → Except WErr WState := fun _ _ _ _ => .error .fuel

/-- A recursion continuation that returns its state unchanged (used to
observe the state passed into a recursive call). -/
def rec_id : Nat → Nat → PStr → WState → Except WErr WState := fun _ _ _ st => .ok st

/-- Package foo whose submodule foo.bar re-imports foo itself: the
smallest import cycle through the root. -/
def g1 : Graph := ⟨[
  { default_pyval with
    ismodule := true
    haspath := true
    name := "foo".data
    pkgAttr := some (some "foo".data)
    typeName := "module".data
    members := [("bar".data, 1)] },
  { default_pyval with
    ismodule := true
    name := "foo.bar".data
    pkgAttr := some (some "foo".data)
    typeName := "module".data
    members := [("foo".data, 0)] }]⟩

/-- Root package foo next to a module owned by foreign package foobar. -/
def g4 : Graph := ⟨[
  { default_pyval with
    ismodule := true
    haspath := true
    name := "foo".data
    typeName := "module".data },
  { default_pyval with
    ismodule := true
    name := "foobar".data
    pkgAttr := some (some "foobar".data)
    typeName := "module".data }]⟩

/-- Package pkg with submodule pkg.c, where module x is reachable both as
a member of pkg.c and as a direct member of pkg. -/
def g5 : Graph := ⟨[
  { default_pyval with
    ismodule := true
    haspath := true
    name := "pkg".data
    typeName := "module".data
    members := [("c".data, 1), ("x".data, 2)] },
  { default_pyval with
    ismodule := true
    name := "pkg.c".data
    pkgAttr := some (some "pkg".data)
    typeName := "module".data
    members := [("x".data, 2)] },
  { default_pyval with
    ismodule := true
    name := "pkg.c.x".data
    pkgAttr := some (some "pkg".data)
    typeName := "module".data }]⟩

/-- Module m exposing the same submodule under two attribute names a
and b (an alias). -/
def g5w : Graph := ⟨[
  { default_pyval with
    ismodule := true
    haspath := true
    name := "m".data
    typeName := "module".data
    members := [("a".data, 1), ("b".data, 1)] },
  { default_pyval with
    ismodule := true
    name := "m.a".data
    pkgAttr := some (some "m".data)
    typeName := "module".data }]⟩

/-- The traversal state after walking g5w: the aliased module is recorded
once, under the first name. -/
def st5w : WState :=
  ⟨[(1, "m.a".data)], ["  a::module".data, "  b::module [see m.a]".data]⟩

/-- A class B nested inside class A, and a plain function whose qualified
name is A.B.f. -/
def g6 : Graph := ⟨[
  { default_pyval with
    isclass := true
    name := "B".data
    typeName := "type".data },
  { default_pyval with
    isfunction := true
    callable := true
    qualname := "A.B.f".data
    typeName := "function".data }]⟩

/-- A top-level class B and a plain function whose qualified name is B.f. -/
def g6w : Graph := ⟨[
  { default_pyval with
    isclass := true
    name := "B".data
    typeName := "type".data },
  { default_pyval with
    isfunction := true
    callable := true
    qualname := "B.f".data
    typeName := "function".data }]⟩

/-- A callable whose signature is not introspectable (inspect.signature
raises ValueError). -/
def g7 : Graph := ⟨[
  { default_pyval with
    callable := true
    signature := none
    typeName := "builtin_function_or_method".data }]⟩

/-- A root module foo and a class C defined in it that is callable (as
every class is) but whose signature is not introspectable
(inspect.signature raises ValueError, the common builtin/extension-class
case). -/
def g7c : Graph := ⟨[
  { default_pyval with
    ismodule := true
    haspath := true
    name := "foo".data
    typeName := "module".data },
  { default_pyval with
    isclass := true
    callable := true
    signature := none
    name := "C".data
    modAttr := some (some "foo".data)
    typeName := "type".data }]⟩

/-- A root module, a class C, and a plain value (an int) that reports no
source location and no owning package or module. -/
def g8 : Graph := ⟨[
  { default_pyval with
    ismodule := true
    haspath := true
    name := "root".data
    typeName := "module".data },
  { default_pyval with
    isclass := true
    name := "C".data
    typeName := "type".data },
  { default_pyval with
    sourcefileRes := none
    typeName := "int".data }]⟩

/-! Helper lemmas about the ledger. -/

theorem ledger_lookup_eq_none {l : List (Nat × PStr)} {k : Nat} :
    ledger_lookup l k = none ↔ k ∉ l.map Prod.fst := by
  induction l with
  | nil => simp [ledger_lookup]
  | cons hd tl ih =>
    obtain ⟨a, p⟩ := hd
    simp only [ledger_lookup, List.map_cons, List.mem_cons]
    by_cases h : a = k
    · simp [h]
    · have h' : ¬(k = a) := fun hh => h hh.symm
      simp [h, h', ih]

theorem ledger_lookup_append_some {l : List (Nat × PStr)} (t : List (Nat × PStr)) {k : Nat} {p : PStr}
    (h : ledger_lookup l k = some p) : ledger_lookup (l ++ t) k = some p := by
  induction l with
  | nil => simp [ledger_lookup] at h
  | cons hd tl ih =>
    obtain ⟨a, q⟩ := hd
    simp only [ledger_lookup, List.cons_append] at h ⊢
    by_cases ha : a = k
    · simpa [ha] using h
    · rw [if_neg ha] at h ⊢
      exact ih h

theorem wfL_length_le (n : Nat) (l : List (Nat × PStr)) (h : wfL n l) : l.length ≤ n := by
  have hsub : l.map Prod.fst ⊆ List.range n := fun k hk => List.mem_range.mpr (h.2 k hk)
  have hle := (List.subperm_of_subset h.1 hsub).length_le
  simpa using hle

theorem wfL_insert (n : Nat) (l : List (Nat × PStr)) (k : Nat) (p : PStr)
    (h : wfL n l) (hk : k < n) (hfresh : ledger_lookup l k = none) :
    wfL n (l ++ [(k, p)]) := by
  have hnotin : k ∉ l.map Prod.fst := ledger_lookup_eq_none.mp hfresh
  constructor
  · rw [List.map_append]
    refine List.nodup_append.mpr ⟨h.1, List.nodup_singleton _, ?_⟩
    intro x hx hx'
    simp at hx'
    subst hx'
    exact hnotin hx
  · intro x hx
    rw [List.map_append] at hx
    rcases List.mem_append.mp hx with hx | hx
    · exact h.2 x hx
    · simp at hx
      subst hx
      exact hk

/-! Helper lemmas about member organization. -/

theorem surviving_subset {cfg : Config} {g : Graph} {nsId : Nat} :
    ∀ {l L : List (PStr × Nat)}, surviving cfg g nsId l = .ok L → ∀ p ∈ L, p ∈ l := by
  intro l
  induction l with
  | nil =>
    intro L h
    simp only [surviving, Except.ok.injEq] at h
    subst h
    simp
  | cons hd tl ih =>
    intro L h
    obtain ⟨nm, v⟩ := hd
    simp only [surviving] at h
    cases hp : member_pred cfg g nsId v with
    | error e => rw [hp] at h; simp at h
    | ok keep =>
      rw [hp] at h
      cases hs : surviving cfg g nsId tl with
      | error e => rw [hs] at h; simp at h
      | ok tail =>
        rw [hs] at h
        simp only [Except.ok.injEq] at h
        subst h
        intro p hpmem
        by_cases hc : (keep && name_filter cfg nm) = true
        · rw [if_pos hc] at hpmem
          rcases List.mem_cons.mp hpmem with hpmem | hpmem
          · exact hpmem ▸ List.mem_cons_self _ _
          · exact List.mem_cons_of_mem _ (ih hs p hpmem)
        · rw [if_neg hc] at hpmem
          exact List.mem_cons_of_mem _ (ih hs p hpmem)

theorem organize_go_eq (cfg : Config) (g : Graph) (nsId : Nat) :
    ∀ (l : List (PStr × Nat)) (acc : List (PStr × Nat) × List (PStr × Nat) × List (PStr × Nat)),
    organize_go cfg g nsId l acc =
      (surviving cfg g nsId l).map (fun L =>
        (acc.1 ++ L.filter (is_term_member g),
         acc.2.1 ++ L.filter (is_class_member g),
         acc.2.2 ++ L.filter (is_module_member g))) := by
  intro l
  induction l with
  | nil => intro acc; simp [organize_go, surviving, Except.map]
  | cons hd tl ih =>
    intro acc
    obtain ⟨nm, v⟩ := hd
    cases hp : member_pred cfg g nsId v with
    | error e => simp [organize_go, surviving, hp, Except.map]
    | ok keep =>
      cases hs : surviving cfg g nsId tl with
      | error e =>
        cases hkf : keep && name_filter cfg nm
        · simp [organize_go, surviving, hp, hs, hkf, ih, Except.map]
        · cases hm : (g.val v).ismodule
          · cases hcl : (g.val v).isclass
            · simp [organize_go, surviving, hp, hs, hkf, hm, hcl, ih, Except.map]
            · simp [organize_go, surviving, hp, hs, hkf, hm, hcl, ih, Except.map]
          · simp [organize_go, surviving, hp, hs, hkf, hm, ih, Except.map]
      | ok tail =>
        cases hkf : keep && name_filter cfg nm
        · simp [organize_go, surviving, hp, hs, hkf, ih, Except.map]
        · cases hm : (g.val v).ismodule
          · cases hcl : (g.val v).isclass
            · simp [organize_go, surviving, hp, hs, hkf, hm, hcl, ih, Except.map,
                List.filter_cons, is_term_member, is_class_member, is_module_member]
            · simp [organize_go, surviving, hp, hs, hkf, hm, hcl, ih, Except.map,
                List.filter_cons, is_term_member, is_class_member, is_module_member]
          · simp [organize_go, surviving, hp, hs, hkf, hm, ih, Except.map,
              List.filter_cons, is_term_member, is_class_member, is_module_member]

theorem organize_eq (cfg : Config) (g : Graph) (nsId : Nat) :
    organize cfg g nsId =
      (surviving cfg g nsId (g.val nsId).members).map (fun L =>
        (L.filter (is_term_member g), L.filter (is_class_member g),
         L.filter (is_module_member g))) := by
  rw [organize, organize_go_eq]
  rfl

theorem organize_mem_subset {cfg : Config} {g : Graph} {nsId : Nat}
    {a b c : List (PStr × Nat)} (h : organize cfg g nsId = .ok (a, b, c)) :
    ∀ p ∈ a ++ b ++ c, p ∈ (g.val nsId).members := by
  rw [organize_eq] at h
  cases hs : surviving cfg g nsId (g.val nsId).members with
  | error e => rw [hs] at h; simp [Except.map] at h
  | ok L =>
    rw [hs] at h
    simp only [Except.map, Except.ok.injEq, Prod.mk.injEq] at h
    obtain ⟨h1, h2, h3⟩ := h
    intro p hp
    rcases List.mem_append.mp hp with hp | hp
    · rcases List.mem_append.mp hp with hp | hp
      · exact surviving_subset hs p (List.mem_of_mem_filter (h1 ▸ hp))
      · exact surviving_subset hs p (List.mem_of_mem_filter (h2 ▸ hp))
    · exact surviving_subset hs p (List.mem_of_mem_filter (h3 ▸ hp))

theorem members_lt (g : Graph) (hg : WFG g) (i : Nat) :
    ∀ p ∈ (g.val i).members, p.2 < g.n := by
  intro p hp
  by_cases hi : i < g.vals.length
  · have hv : g.val i = g.vals.get ⟨i, hi⟩ := by
      simp [Graph.val, List.getD_eq_getElem?_getD, List.getElem?_eq_getElem hi]
    rw [hv] at hp
    exact hg _ (List.get_mem _ _ _) p hp
  · have hv : g.val i = default_pyval := by
      simp [Graph.val, List.getD_eq_getElem?_getD, List.getElem?_eq_none (Nat.le_of_not_lt hi)]
    rw [hv] at hp
    simp [default_pyval] at hp

/-! Helper lemmas about the traversal: the ledger only ever grows by
fresh appends, stays well formed, and enough fuel never runs out. -/

theorem handle_mono {cfg : Config} {g : Graph}
    {recurse : Nat → Nat → PStr → WState → Except WErr WState}
    {srcNs : Nat} {nm : PStr} {vId depth : Nat} {tab subtab : PStr} {st st' : WState}
    (hrec : ∀ a b c s s', recurse a b c s = .ok s' → s.ledger <+: s'.ledger)
    (h : handle_name cfg g recurse srcNs nm vId depth tab subtab st = .ok st') :
    st.ledger <+: st'.ledger := by
  unfold handle_name at h
  split at h
  · split at h
    · simp at h
    · split at h
      · simp only [Except.ok.injEq] at h
        subst h
        exact List.prefix_rfl
      · split at h
        · simp only [Except.ok.injEq] at h
          subst h
          exact List.prefix_rfl
        · split at h
          · simp only [Except.ok.injEq] at h
            subst h
            exact List.prefix_rfl
          · exact (List.prefix_append _ _).trans (hrec _ _ _ _ _ h)
  · simp only [Except.ok.injEq] at h
    subst h
    exact List.prefix_rfl

theorem handle_wf {n : Nat} {cfg : Config} {g : Graph}
    {recurse : Nat → Nat → PStr → WState → Except WErr WState}
    {srcNs : Nat} {nm : PStr} {vId depth : Nat} {tab subtab : PStr} {st st' : WState}
    (hrec : ∀ a b c s s', recurse a b c s = .ok s' → wfS n s → wfS n s')
    (hv : vId < n)
    (h : handle_name cfg g recurse srcNs nm vId depth tab subtab st = .ok st')
    (hst : wfS n st) : wfS n st' := by
  unfold handle_name at h
  split at h
  · split at h
    · simp at h
    · split at h
      · simp only [Except.ok.injEq] at h
        subst h
        exact hst
      · split at h
        · simp only [Except.ok.injEq] at h
          subst h
          exact hst
        · rename_i hfresh
          split at h
          · simp only [Except.ok.injEq] at h
            subst h
            exact hst
          · exact hrec _ _ _ _ _ h (wfL_insert n st.ledger vId _ hst hv hfresh)
  · simp only [Except.ok.injEq] at h
    subst h
    exact hst

theorem handle_nofuel {n fuel : Nat} {cfg : Config} {g : Graph}
    {recurse : Nat → Nat → PStr → WState → Except WErr WState}
    {srcNs : Nat} {nm : PStr} {vId depth : Nat} {tab subtab : PStr} {st : WState}
    (hrec : ∀ a b c s, wfS n s → n + 1 ≤ s.ledger.length + fuel →
      recurse a b c s ≠ .error .fuel)
    (hv : vId < n) (hst : wfS n st)
    (hb : n + 1 ≤ st.ledger.length + (fuel + 1)) :
    handle_name cfg g recurse srcNs nm vId depth tab subtab st ≠ .error .fuel := by
  unfold handle_name
  split
  · split
    · simp
    · split
      · simp
      · split
        · simp
        · rename_i hfresh
          split
          · simp
          · apply hrec
            · exact wfL_insert n st.ledger vId _ hst hv hfresh
            · simp only [List.length_append, List.length_cons, List.length_nil]
              omega
  · simp

theorem emit_mono {cfg : Config} {g : Graph}
    {recurse : Nat → Nat → PStr → WState → Except WErr WState}
    {srcNs depth : Nat} {tab : PStr}
    (hrec : ∀ a b c s s', recurse a b c s = .ok s' → s.ledger <+: s'.ledger) :
    ∀ {l : List (PStr × Nat)} {st st' : WState},
    emit_all cfg g recurse srcNs depth tab l st = .ok st' → st.ledger <+: st'.ledger := by
  intro l
  induction l with
  | nil =>
    intro st st' h
    simp only [emit_all, Except.ok.injEq] at h
    subst h
    exact List.prefix_rfl
  | cons hd tl ih =>
    intro st st' h
    obtain ⟨nm, v⟩ := hd
    cases tl with
    | nil =>
      simp only [emit_all] at h
      exact handle_mono hrec h
    | cons hd2 tl2 =>
      simp only [emit_all] at h
      cases hh : handle_name cfg g recurse srcNs nm v depth (tab ++ cfg.tree.fork)
          (tab ++ cfg.tree.line) st with
      | error e => rw [hh] at h; simp at h
      | ok st1 =>
        rw [hh] at h
        exact (handle_mono hrec hh).trans (ih h)

theorem emit_wf {n : Nat} {cfg : Config} {g : Graph}
    {recurse : Nat → Nat → PStr → WState → Except WErr WState}
    {srcNs depth : Nat} {tab : PStr}
    (hrec : ∀ a b c s s', recurse a b c s = .ok s' → wfS n s → wfS n s') :
    ∀ {l : List (PStr × Nat)} {st st' : WState}, (∀ p ∈ l, p.2 < n) →
    emit_all cfg g recurse srcNs depth tab l st = .ok st' → wfS n st → wfS n st' := by
  intro l
  induction l with
  | nil =>
    intro st st' _ h hst
    simp only [emit_all, Except.ok.injEq] at h
    subst h
    exact hst
  | cons hd tl ih =>
    intro st st' hl h hst
    obtain ⟨nm, v⟩ := hd
    have hv : v < n := hl (nm, v) (List.mem_cons_self _ _)
    cases tl with
    | nil =>
      simp only [emit_all] at h
      exact handle_wf hrec hv h hst
    | cons hd2 tl2 =>
      simp only [emit_all] at h
      cases hh : handle_name cfg g recurse srcNs nm v depth (tab ++ cfg.tree.fork)
          (tab ++ cfg.tree.line) st with
      | error e => rw [hh] at h; simp at h
      | ok st1 =>
        rw [hh] at h
        exact ih (fun p hp => hl p (List.mem_cons_of_mem _ hp)) h (handle_wf hrec hv hh hst)

theorem emit_nofuel {n fuel : Nat} {cfg : Config} {g : Graph}
    {recurse : Nat → Nat → PStr → WState → Except WErr WState}
    {srcNs depth : Nat} {tab : PStr}
    (hrecm : ∀ a b c s s', recurse a b c s = .ok s' → s.ledger <+: s'.ledger)
    (hrecw : ∀ a b c s s', recurse a b c s = .ok s' → wfS n s → wfS n s')
    (hrecf : ∀ a b c s, wfS n s → n + 1 ≤ s.ledger.length + fuel →
      recurse a b c s ≠ .error .fuel) :
    ∀ {l : List (PStr × Nat)} {st : WState}, (∀ p ∈ l, p.2 < n) → wfS n st →
    n + 1 ≤ st.ledger.length + (fuel + 1) →
    emit_all cfg g recurse srcNs depth tab l st ≠ .error .fuel := by
  intro l
  induction l with
  | nil =>
    intro st _ _ _
    simp [emit_all]
  | cons hd tl ih =>
    intro st hl hst hb
    obtain ⟨nm, v⟩ := hd
    have hv : v < n := hl (nm, v) (List.mem_cons_self _ _)
    cases tl with
    | nil =>
      simp only [emit_all]
      exact handle_nofuel hrecf hv hst hb
    | cons hd2 tl2 =>
      simp only [emit_all]
      cases hh : handle_name cfg g recurse srcNs nm v depth (tab ++ cfg.tree.fork)
          (tab ++ cfg.tree.line) st with
      | error e =>
        cases e with
        | fuel => exact absurd hh (handle_nofuel hrecf hv hst hb)
        | exc => simp
      | ok st1 =>
        have hlen : st.ledger.length ≤ st1.ledger.length :=
          (handle_mono hrecm hh).length_le
        exact ih (fun p hp => hl p (List.mem_cons_of_mem _ hp))
          (handle_wf hrecw hv hh hst) (by omega)

theorem walk_mono (cfg : Config) (g : Graph) :
    ∀ (fuel : Nat) (a b : Nat) (c : PStr) (st st' : WState),
    walk_names cfg g fuel a b c st = .ok st' → st.ledger <+: st'.ledger := by
  intro fuel
  induction fuel with
  | zero =>
    intro a b c st st' h
    simp [walk_names] at h
  | succ k ih =>
    intro a b c st st' h
    simp only [walk_names] at h
    cases ho : organize cfg g a with
    | error e => rw [ho] at h; simp at h
    | ok triple =>
      obtain ⟨names, classes, modules⟩ := triple
      rw [ho] at h
      exact emit_mono ih h

theorem walk_wf (cfg : Config) (g : Graph) (hg : WFG g) :
    ∀ (fuel : Nat) (a b : Nat) (c : PStr) (st st' : WState),
    walk_names cfg g fuel a b c st = .ok st' → wfS g.n st → wfS g.n st' := by
  intro fuel
  induction fuel with
  | zero =>
    intro a b c st st' h
    simp [walk_names] at h
  | succ k ih =>
    intro a b c st st' h hst
    simp only [walk_names] at h
    cases ho : organize cfg g a with
    | error e => rw [ho] at h; simp at h
    | ok triple =>
      obtain ⟨names, classes, modules⟩ := triple
      rw [ho] at h
      exact emit_wf ih
        (fun p hp => members_lt g hg a p (organize_mem_subset ho p hp)) h hst

theorem walk_nofuel (cfg : Config) (g : Graph) (hg : WFG g) :
    ∀ (fuel : Nat) (a b : Nat) (c : PStr) (st : WState), wfS g.n st →
    g.n + 1 ≤ st.ledger.length + fuel →
    walk_names cfg g fuel a b c st ≠ .error .fuel := by
  intro fuel
  induction fuel with
  | zero =>
    intro a b c st hst hb
    exfalso
    have := wfL_length_le g.n st.ledger hst
    omega
  | succ k ih =>
    intro a b c st hst hb
    simp only [walk_names]
    cases ho : organize cfg g a with
    | error e => simp
    | ok triple =>
      obtain ⟨names, classes, modules⟩ := triple
      exact emit_nofuel (walk_mono cfg g k) (walk_wf cfg g hg k)
        (fun a b c s => ih a b c s)
        (fun p hp => members_lt g hg a p (organize_mem_subset ho p hp)) hst hb

/-! The claims. -/

/-- C1 (amended): on every encounter of a module/class symbol that passes
the external check and whose identity is already recorded in the ledger,
the walker emits exactly that symbol's line with the inline see
back-reference annotation and does not recurse (the result is the same for
every recursion continuation, and the ledger is unchanged).  The original
universal form of the claim fails for the root namespace, which is never
recorded before the walk begins and can therefore be re-entered once when
it is reachable from its own subtree. -/
theorem c1_ledger_hit_backref {cfg : Config} {g : Graph}
    {recurse : Nat → Nat → PStr → WState → Except WErr WState}
    {srcNs : Nat} {nm : PStr} {vId depth : Nat} {tab subtab : PStr} {st : WState} {p : PStr}
    (hk : ((g.val vId).ismodule || (g.val vId).isclass) = true)
    (hx : (if cfg.foreign then Except.ok true else in_package g cfg.rootId vId) =
      Except.ok true)
    (hl : ledger_lookup st.ledger vId = some p) :
    handle_name cfg g recurse srcNs nm vId depth tab subtab st =
      .ok ⟨st.ledger,
           st.out ++ [tab ++ fmt_name cfg g vId nm ++ " ".data ++ see_note cfg p]⟩ := by
  simp [handle_name, hk, hx, hl]

/-- C1 witness: a concrete later encounter of the already-recorded module
foo.bar renders the see annotation and leaves the ledger alone. -/
theorem c1_ledger_hit_backref_witness :
    handle_name cfg_plain g1 rec_fail 0 "bar".data 1 3 "  ".data "    ".data
        ⟨[(1, "foo.bar".data)], []⟩ =
      .ok ⟨[(1, "foo.bar".data)], ["  bar::module [see foo.bar]".data]⟩ :=
  (@c1_ledger_hit_backref cfg_plain g1 rec_fail 0 "bar".data 1 3 "  ".data
    "    ".data ⟨[(1, "foo.bar".data)], []⟩ "foo.bar".data rfl rfl rfl).trans rfl

/-- C1 counterexample: in package foo whose submodule foo.bar re-imports
foo, the root is recursed into twice — its single member bar is rendered
at two places in the output — and the root ends up recorded in the ledger
under a path through its own subtree.  So "no namespace identity is ever
recursed into more than once" is false as stated. -/
theorem c1_counterexample :
    (walk_names cfg_plain g1 5 0 1 [] ⟨[], []⟩).toOption.map
        (fun st => (st.out.countP (line_mentions "bar::module".data),
                    ledger_lookup st.ledger 0)) =
      some (2, some "foo.bar.foo".data) := rfl

/-- C2: for every well-formed finite reflected graph — import cycles and
aliases included — the traversal started by walk_names terminates with no
configured maximum depth (and with any): fuel exceeding the number of
objects not yet in the ledger is never exhausted, because every recursive
descent first records a previously-absent namespace identity and ledger
entries are never removed. -/
theorem c2_walk_terminates {cfg : Config} {g : Graph} {fuel nsId depth : Nat}
    {tab : PStr} {st : WState}
    (hg : WFG g) (hst : wfS g.n st) (hb : g.n + 1 ≤ st.ledger.length + fuel) :
    walk_names cfg g fuel nsId depth tab st ≠ .error .fuel :=
  walk_nofuel cfg g hg fuel nsId depth tab st hst hb

/-- C2 witness: the cyclic graph g1 (foo.bar re-imports foo) is walked to
completion with fuel n + 1 = 3. -/
theorem c2_walk_terminates_witness :
    WFG g1 ∧ wfS g1.n ⟨[], []⟩ ∧ g1.n + 1 ≤ ([] : List (Nat × PStr)).length + 3 ∧
    walk_names cfg_plain g1 3 0 1 [] ⟨[], []⟩ ≠ .error .fuel :=
  ⟨by decide, by decide, by decide,
   @c2_walk_terminates cfg_plain g1 3 0 1 [] ⟨[], []⟩ (by decide) (by decide)
     (by decide)⟩

/-- C3 (amended): at a module/class symbol that passes the external check
and whose identity is not yet in the ledger, the walker emits the line
and: when a maximum depth is configured and reached, it emits the single
truncation marker child and does NOT record the identity; only in the
other outcome — recursing at depth + 1 — is the identity first recorded in
the ledger, under the path formed from the parent namespace's __name__
attribute, a dot, and the symbol name.  (The original claim asserted the
recording happens in both outcomes.) -/
theorem c3_fresh_namespace_recording {cfg : Config} {g : Graph}
    {recurse : Nat → Nat → PStr → WState → Except WErr WState}
    {srcNs : Nat} {nm : PStr} {vId depth : Nat} {tab subtab : PStr} {st : WState}
    (hk : ((g.val vId).ismodule || (g.val vId).isclass) = true)
    (hx : (if cfg.foreign then Except.ok true else in_package g cfg.rootId vId) =
      Except.ok true)
    (hl : ledger_lookup st.ledger vId = none) :
    ((match cfg.max_depth with
      | some d => decide (d ≤ (depth : Int))
      | none => false) = true →
      handle_name cfg g recurse srcNs nm vId depth tab subtab st =
        .ok ⟨st.ledger,
             st.out ++ [tab ++ fmt_name cfg g vId nm,
                        subtab ++ cfg.tree.stop ++ trunc_note cfg]⟩) ∧
    ((match cfg.max_depth with
      | some d => decide (d ≤ (depth : Int))
      | none => false) = false →
      handle_name cfg g recurse srcNs nm vId depth tab subtab st =
        recurse vId (depth + 1) subtab
          ⟨st.ledger ++ [(vId, (g.val srcNs).name ++ ".".data ++ nm)],
           st.out ++ [tab ++ fmt_name cfg g vId nm]⟩) := by
  constructor <;> intro hd <;> simp [handle_name, hk, hx, hl, hd]

/-- C3 witness: with max depth 2, the module x handled at depth 2 gets the
truncation child; with no configured maximum, the module c handled at
depth 1 is recorded in the ledger under pkg.c before recursing. -/
theorem c3_fresh_namespace_recording_witness :
    (handle_name cfg_d2 g5 rec_fail 0 "x".data 2 2 "  ".data "    ".data ⟨[], []⟩ =
      .ok ⟨[], ["  x::module".data, "      [...]".data]⟩) ∧
    (handle_name cfg_plain g5 rec_id 0 "c".data 1 1 "  ".data "  ".data ⟨[], []⟩ =
      .ok ⟨[(1, "pkg.c".data)], ["  c::module".data]⟩) :=
  ⟨((@c3_fresh_namespace_recording cfg_d2 g5 rec_fail 0 "x".data 2 2 "  ".data
      "    ".data ⟨[], []⟩ rfl rfl rfl).1 rfl).trans rfl,
   ((@c3_fresh_namespace_recording cfg_plain g5 rec_id 0 "c".data 1 1 "  ".data
      "  ".data ⟨[], []⟩ rfl rfl rfl).2 rfl).trans rfl⟩

/-- C3 counterexample: with max depth 2, the fresh namespace x handled at
depth 2 gets the truncation marker child but its identity is NOT recorded
in the ledger — the ledger stays empty — contradicting the claim that the
recording happens in both outcomes. -/
theorem c3_counterexample :
    (handle_name cfg_d2 g5 rec_fail 0 "x".data 2 2 "  ".data "    ".data
        ⟨[], []⟩).toOption.map (fun st => (st.ledger, st.out)) =
      some ([], ["  x::module".data, "      [...]".data]) := rfl

/-- C4 (amended): for every value with a reportable (non-None) owning
package or module name, in_package returns exactly the plain textual
startswith test of that name against the root package's name — a substring
prefix match with no dot-boundary requirement, so a value owned by package
foobar IS in-root when the root package is foo. -/
theorem c4_in_package_textual {g : Graph} {pId oId : Nat} {m : PStr}
    (h : (g.val oId).pkgAttr = some (some m) ∨
      ((g.val oId).pkgAttr = none ∧ (g.val oId).modAttr = some (some m))) :
    in_package g pId oId = .ok (startswith m (g.val pId).name) := by
  unfold in_package
  rcases h with h | ⟨h1, h2⟩
  · rw [h]
  · rw [h1, h2]

/-- C4 witness: a module owned by foobar against root foo evaluates to the
plain textual prefix test. -/
theorem c4_in_package_textual_witness : in_package g4 0 1 = .ok true :=
  (@c4_in_package_textual g4 0 1 "foobar".data (Or.inl rfl)).trans rfl

/-- C4 counterexample: a value owned by package foobar is accepted as
in-root for root package foo — even though foobar does not extend foo at a
dot component boundary — contradicting the claimed dotted-path-prefix
semantics. -/
theorem c4_counterexample :
    in_package g4 0 1 = .ok true ∧
    spec_dotted_prefixed "foobar".data "foo".data = false :=
  ⟨rfl, by decide⟩

/-- C5 (amended): across any successful walk, the ledger's identities stay
pairwise distinct (each namespace identity appears at most once), the
starting ledger is a prefix of the final one (no entry is ever overwritten
or removed), and every existing binding still looks up to the same path
afterwards.  The recorded path is the path of the first encounter that
actually recursed into the namespace: an encounter truncated at the
maximum depth (or the root's initial rendering) records nothing, so the
recorded path need not be the first pre-order encounter path. -/
theorem c5_ledger_unique_stable {cfg : Config} {g : Graph} {fuel nsId depth : Nat}
    {tab : PStr} {st st' : WState}
    (hg : WFG g) (hst : wfS g.n st)
    (h : walk_names cfg g fuel nsId depth tab st = .ok st') :
    wfS g.n st' ∧ st.ledger <+: st'.ledger ∧
      ∀ k p, ledger_lookup st.ledger k = some p → ledger_lookup st'.ledger k = some p := by
  refine ⟨walk_wf cfg g hg fuel nsId depth tab st st' h hst,
          walk_mono cfg g fuel nsId depth tab st st' h, ?_⟩
  intro k p hk
  obtain ⟨t, ht⟩ := walk_mono cfg g fuel nsId depth tab st st' h
  rw [← ht]
  exact ledger_lookup_append_some t hk

/-- C5 witness: walking a module that exposes the same submodule under the
two names a and b records it once (under m.a, the first name) and keeps a
well-formed, grown ledger. -/
theorem c5_ledger_unique_stable_witness :
    WFG g5w ∧ wfS g5w.n ⟨[], []⟩ ∧
    walk_names cfg_m g5w 3 0 1 [] ⟨[], []⟩ = .ok st5w ∧
    wfS g5w.n st5w ∧ ([] : List (Nat × PStr)) <+: st5w.ledger :=
  ⟨by decide, by decide, rfl,
   (@c5_ledger_unique_stable cfg_m g5w 3 0 1 [] ⟨[], []⟩ st5w (by decide)
     (by decide) rfl).1,
   (@c5_ledger_unique_stable cfg_m g5w 3 0 1 [] ⟨[], []⟩ st5w (by decide)
     (by decide) rfl).2.1⟩

/-- C5 counterexample: with max depth 2 on graph g5, namespace x is first
encountered (its line emitted, truncated) as a member of pkg.c — the
pre-order-first path would be pkg.c.x — but because that encounter records
nothing, x ends up bound in the ledger to pkg.x, the path of the later
root-level encounter.  So "bound to the path under which it was first
encountered in pre-order traversal" is false as stated. -/
theorem c5_counterexample :
    (walk_names cfg_d2 g5 9 0 1 [] ⟨[], []⟩).toOption.map
        (fun st => (st.ledger, st.out)) =
      some ([(1, "pkg.c".data), (2, "pkg.x".data)],
            ["  c::module".data, "    x::module".data, "      [...]".data,
             "  x::module".data]) ∧
    ("pkg.x".data : PStr) ≠ (g5.val 1).name ++ ".".data ++ "x".data :=
  ⟨rfl, by decide⟩

/-- C6 (amended): in canonical mode, for a class namespace and a plain
function value, is_canon returns true iff the function's qualified
declaration path with its trailing member name stripped equals — in its
entirety — the class's own name.  For a class nested inside another class
or enclosing scope the stripped path keeps the enclosing components, so it
does not equal the class's bare name and the function is judged not
canonical: the result does NOT depend only on the last component. -/
theorem c6_is_canon_function {g : Graph} {nsId vId : Nat}
    (hw1 : (g.val nsId).wrapped = none) (hw2 : (g.val vId).wrapped = none)
    (hb : (g.val vId).isbuiltin = false) (hm : (g.val nsId).ismodule = false)
    (h1 : (g.val vId).ismethod = false) (h2 : (g.val vId).ismethoddescriptor = false)
    (h3 : (g.val vId).isfunction = true) :
    is_canon g nsId vId =
      .ok (decide (rsplit_head (g.val vId).qualname = (g.val nsId).name)) := by
  simp [is_canon, hw1, hw2, hb, hm, h1, h2, h3]

/-- C6 witness: a top-level class B and a function with qualified name B.f
are matched canonical. -/
theorem c6_is_canon_function_witness : is_canon g6w 0 1 = .ok true :=
  (@c6_is_canon_function g6w 0 1 rfl rfl rfl rfl rfl rfl rfl).trans rfl

/-- C6 counterexample: for class B nested as A.B and a function with
qualified name A.B.f, the last component of the stripped path A.B is B and
equals the class's own name, yet is_canon returns false — the code
compares the whole stripped path A.B against B. -/
theorem c6_counterexample :
    is_canon g6 0 1 = .ok false ∧
    last_component (rsplit_head (g6.val 1).qualname) = (g6.val 0).name :=
  ⟨rfl, by decide⟩

/-- C7: with signature display enabled, EVERY callable value whose
signature cannot be introspected (inspect.signature raises ValueError) —
plain callables and class callables alike — is recovered locally:
fmt_name renders the symbol as name(???) with the placeholder colored red
and bold (the error flag); no exception leaves the formatter, so handling
the symbol can only fail through the external check's own AttributeError
or a failure of the deeper walk, never through the signature; and for a
terminal (non-namespace) callable the walker emits exactly that one line
and continues. -/
theorem c7_sig_failure {cfg : Config} {g : Graph} {vId : Nat} {nm : PStr}
    (h1 : cfg.signatures = true) (h2 : (g.val vId).callable = true)
    (h3 : (g.val vId).signature = none) :
    (fmt_name cfg g vId nm =
      cfg.color (nm ++ "(".data ++
          cfg.color "???".data (Fg.named "red".data) (some "bold".data) ++ ")".data)
        (fmt_name_fg (fmt_tag (g.val vId))) none ++ "::".data ++ fmt_tag (g.val vId)) ∧
    (∀ recurse srcNs depth tab subtab st e,
      handle_name cfg g recurse srcNs nm vId depth tab subtab st = Except.error e →
      (e = WErr.exc ∧
        (if cfg.foreign then Except.ok true else in_package g cfg.rootId vId) =
          Except.error ()) ∨
      ∃ st1, recurse vId (depth + 1) subtab st1 = Except.error e) ∧
    (∀ recurse srcNs depth tab subtab st,
      ((g.val vId).ismodule || (g.val vId).isclass) = false →
      handle_name cfg g recurse srcNs nm vId depth tab subtab st =
        .ok ⟨st.ledger, st.out ++ [tab ++ fmt_name cfg g vId nm]⟩) := by
  refine ⟨?_, ?_, ?_⟩
  · simp [fmt_name, h1, h2, h3]
  · intro recurse srcNs depth tab subtab st e h
    unfold handle_name at h
    split at h
    · split at h
      · rename_i u heq
        simp at h
        subst h
        refine Or.inl ⟨rfl, ?_⟩
        cases u
        exact heq
      · split at h
        · simp at h
        · split at h
          · simp at h
          · split at h
            · simp at h
            · exact Or.inr ⟨_, h⟩
    · simp at h
  · intro recurse srcNs depth tab subtab st hterm
    simp [handle_name, hterm]

/-- C7 witness: a concrete non-introspectable plain callable renders as
f(???)::builtin_function_or_method and the walker emits its line and
moves on; a concrete non-introspectable class callable renders as
C(???)::type and the walker proceeds past it into its subtree, fully
recovered. -/
theorem c7_sig_failure_witness :
    fmt_name cfg_sig g7 0 "f".data = "f(???)::builtin_function_or_method".data ∧
    fmt_name cfg_sig g7c 1 "C".data = "C(???)::type".data ∧
    handle_name cfg_sig g7 rec_fail 0 "f".data 0 1 [] [] ⟨[], []⟩ =
      .ok ⟨[], ["f(???)::builtin_function_or_method".data]⟩ ∧
    handle_name cfg_sig g7c rec_id 0 "C".data 1 1 [] [] ⟨[], []⟩ =
      .ok ⟨[(1, "foo.C".data)], ["C(???)::type".data]⟩ :=
  ⟨((@c7_sig_failure cfg_sig g7 0 "f".data rfl rfl rfl).1).trans rfl,
   ((@c7_sig_failure cfg_sig g7c 1 "C".data rfl rfl rfl).1).trans rfl,
   ((@c7_sig_failure cfg_sig g7 0 "f".data rfl rfl rfl).2.2
      rec_fail 0 1 [] [] ⟨[], []⟩ rfl).trans rfl,
   rfl⟩

/-- C8 (amended): a value reporting no owning package and no owning module
is classified not-in-root by in_package, with no exception; and is_canon
raises no exception over a class namespace — but for a class-namespace
value that is not a method, method descriptor, function or property
(provenance-free plain data included) is_canon falls to the default branch
and returns TRUE, not false: absence of provenance is a normal case, but
the class default answer is canonical-by-default. -/
theorem c8_no_provenance {g : Graph} {pId oId nsId vId : Nat}
    (hp : (g.val oId).pkgAttr = none) (hm : (g.val oId).modAttr = none)
    (hw1 : (g.val nsId).wrapped = none) (hw2 : (g.val vId).wrapped = none)
    (hb : (g.val vId).isbuiltin = false) (hn : (g.val nsId).ismodule = false)
    (h1 : (g.val vId).ismethod = false) (h2 : (g.val vId).ismethoddescriptor = false)
    (h3 : (g.val vId).isfunction = false) (h4 : (g.val vId).isproperty = false) :
    in_package g pId oId = .ok false ∧ is_canon g nsId vId = .ok true := by
  constructor
  · unfold in_package
    rw [hp, hm]
  · simp [is_canon, hw1, hw2, hb, hn, h1, h2, h3, h4]

/-- C8 witness: the plain int value with no provenance in graph g8 is
not-in-root and canonical-by-default in class C. -/
theorem c8_no_provenance_witness :
    in_package g8 0 2 = .ok false ∧ is_canon g8 1 2 = .ok true :=
  @c8_no_provenance g8 0 2 1 2 rfl rfl rfl rfl rfl rfl rfl rfl rfl rfl

/-- C8 counterexample: a value with no reported source location (its
getsourcefile raises TypeError) and no owning package/module makes
in_package return false, but is_canon over the class namespace C returns
TRUE — contradicting the claim that both return false. -/
theorem c8_counterexample :
    (g8.val 2).pkgAttr = none ∧ (g8.val 2).modAttr = none ∧
    (g8.val 2).sourcefileRes = none ∧
    in_package g8 0 2 = .ok false ∧ is_canon g8 1 2 = .ok true :=
  ⟨rfl, rfl, rfl, rfl, rfl⟩

/-- C9: organizing one namespace's surviving members is exactly the stable
three-way partition of the enumeration: the names group is the surviving
terminals in enumeration order, then the classes, then the modules; the
walker emits the concatenation names ++ classes ++ modules in that order,
so every surviving terminal value precedes every class, which precedes
every module, each group internally in enumeration order. -/
theorem c9_grouping (cfg : Config) (g : Graph) (nsId : Nat) :
    organize cfg g nsId =
      (surviving cfg g nsId (g.val nsId).members).map (fun L =>
        (L.filter (is_term_member g), L.filter (is_class_member g),
         L.filter (is_module_member g))) :=
  organize_eq cfg g nsId

/-- C10: with the private, magic and all toggles all disabled, name_filter
rejects every name of magic form __x__ and every name of private form _x;
with the all toggle enabled, names of both forms pass the filter. -/
theorem c10_name_filter_policy (cfg : Config) (x : PStr) :
    (cfg.all = false → cfg.private_ = false → cfg.magic = false →
      name_filter cfg ("__".data ++ x ++ "__".data) = false ∧
      name_filter cfg ("_".data ++ x) = false) ∧
    (cfg.all = true →
      name_filter cfg ("__".data ++ x ++ "__".data) = true ∧
      name_filter cfg ("_".data ++ x) = true) := by
  have hmagic : is_magic ('_' :: '_' :: (x ++ ['_', '_'])) = true := by
    simp only [is_magic, startswith, endswith, Bool.and_eq_true]
    constructor
    · simp [List.isPrefixOf]
    · simp [List.isSuffixOf, List.isPrefixOf]
  have hstart : startswith ('_' :: x) ['_'] = true := by
    simp [startswith, List.isPrefixOf]
  constructor
  · intro ha hp hm
    constructor
    · have hpriv : is_private ('_' :: '_' :: (x ++ ['_', '_'])) = false := by
        simp [is_private, hmagic]
      simp [name_filter, ha, hp, hm, hmagic, hpriv]
    · cases hm2 : is_magic ('_' :: x)
      · have hpriv : is_private ('_' :: x) = true := by
          simp [is_private, hstart, hm2]
        simp [name_filter, ha, hp, hm, hpriv]
      · have hpriv : is_private ('_' :: x) = false := by
          simp [is_private, hm2]
        simp [name_filter, ha, hp, hm, hm2, hpriv]
  · intro ha
    constructor <;> simp [name_filter, ha]

/-- C10 witness: with everything off, __x__ and _x are rejected; with all
on, both pass. -/
theorem c10_name_filter_policy_witness :
    (name_filter cfg_plain "__x__".data = false ∧
     name_filter cfg_plain "_x".data = false) ∧
    (name_filter cfg_all "__x__".data = true ∧
     name_filter cfg_all "_x".data = true) :=
  ⟨(c10_name_filter_policy cfg_plain "x".data).1 rfl rfl rfl,
   (c10_name_filter_policy cfg_all "x".data).2 rfl⟩
